import Mathlib

/-!
Verification of the wandr itinerary-planning front end and of the planner
contract described in its design document.

The client components (`FilterPanel.tsx`, `RoutePlanningPanel.tsx`, the route
context) are embedded directly from the TypeScript sources.  JavaScript numbers
that never carry a NaN in the embedded code paths are modelled as exact
rationals (coordinates) or integers (sliders, counters); a coordinate field
that may hold NaN at runtime is modelled by the dedicated type `JsNum`.

The planner service behind `POST /sidequest` is not part of the repository
sources (only the client that calls it is), so the planner pipeline is
modelled from the specification; those definitions carry doc comments starting
with "Modelled from the spec:".  Times are modelled in whole minutes and
money in whole currency units, so that every pipeline run on concrete input
is kernel-computable.
-/

namespace Wandr

/-! ### Client data model (route context, `route-context.tsx`) -/

/-- A geolocation fix as delivered by `navigator.geolocation`. -/
structure Location where
  latitude : ℚ
  longitude : ℚ

/-- A stop of the shared route context (`PlaceStop` in `route-context.tsx`);
only the fields used by the verified components are carried. -/
structure PlaceStop where
  place_id : String
  name : String
  address : String
  lat : ℚ
  lng : ℚ
  types : List String

/-! ### FilterPanel (`FilterPanel.tsx`) -/

/-- The `interests` checkbox group of `FilterState` (lines 9-14). -/
structure InterestChecks where
  shopping : Bool
  food : Bool
  entertainment : Bool
  scenery : Bool

/-- The `indoorOutdoor` checkbox pair of `FilterState` (lines 20-23). -/
structure IndoorOutdoorChecks where
  indoor : Bool
  outdoor : Bool

/-- The panel's free-text distance field after `trim`/`parseFloat`:
an empty string, a non-numeric string, or a parsed number. -/
inductive DistanceInput where
  | empty : DistanceInput
  | invalid : DistanceInput
  | value (d : ℚ) : DistanceInput

/-- `FilterState` (lines 7-25); `budget` is the integer slider 0-400. -/
structure FilterState where
  energy : ℤ
  interests : InterestChecks
  budget : ℤ
  timeStart : String
  timeEnd : String
  indoorOutdoor : IndoorOutdoorChecks
  distance : DistanceInput

/-- The JSON payload `sidequestData` posted to `/sidequest` (lines 182-193). -/
structure SidequestData where
  lat : ℚ
  lon : ℚ
  travel_distance : ℚ
  start_time : String
  end_time : String
  budget : Option ℤ
  interests : List String
  energy : ℤ
  indoor_outdoor : Option String
  user_id : String

/-- `Object.keys(filters.interests).filter(key => filters.interests[key])`
(lines 172-174); key order is the literal's insertion order. -/
def selectedInterests (i : InterestChecks) : List String :=
  (if i.shopping then ["shopping"] else []) ++
  (if i.food then ["food"] else []) ++
  (if i.entertainment then ["entertainment"] else []) ++
  (if i.scenery then ["scenery"] else [])

/-- The nested conditional computing `selectedIndoorOutdoor` (lines 176-180);
`none` models the JSON `null`. -/
def selectedIndoorOutdoor (io : IndoorOutdoorChecks) : Option String :=
  if io.indoor && io.outdoor then none
  else if io.indoor then some "indoor"
  else if io.outdoor then some "outdoor"
  else none

/-- The `sidequestData` object literal (lines 182-193). -/
def buildSidequestData (f : FilterState) (loc : Location) (dist : ℚ) : SidequestData :=
  { lat := loc.latitude
    lon := loc.longitude
    travel_distance := dist
    start_time := f.timeStart
    end_time := f.timeEnd
    budget := if f.budget > 0 then some f.budget else none
    interests := selectedInterests f.interests
    energy := f.energy
    indoor_outdoor := selectedIndoorOutdoor f.indoorOutdoor
    user_id := "test_user" }

/-- The pre-request part of `handleGenerateSidequest` (lines 147-193):
validate the distance field, obtain the geolocation (`geo = none` models a
failed `getUserLocation`), then build the payload.  `none` means an alert was
shown and no request was issued. -/
def handleGenerateSidequest (f : FilterState) (geo : Option Location) : Option SidequestData :=
  match f.distance with
  | .empty => none
  | .invalid => none
  | .value d =>
      if d < 0 then none
      else
        match geo with
        | none => none
        | some loc => some (buildSidequestData f loc d)

/-- One itinerary entry of the `/sidequest` response (lines 43-54). -/
structure SidequestActivity where
  title : String
  lat : ℚ
  lon : ℚ
  duration_hours : ℚ
  cost : Option ℚ
  activity_type : String
  indoor_outdoor : String
  energy_level : ℤ
  confidence : ℚ

/-- `mapActivityToPlaceStop` (lines 70-80). -/
def mapActivityToPlaceStop (a : SidequestActivity) (index : ℕ) : PlaceStop :=
  { place_id := "sidequest-" ++ toString index ++ "-" ++ a.title
    name := a.title
    address := ""
    lat := a.lat
    lng := a.lon
    types := [a.activity_type] }

/-- `result.itinerary.map(mapActivityToPlaceStop)` (line 211): the JS callback
receives `(element, index)`. -/
def placeStopsOf (its : List SidequestActivity) : List PlaceStop :=
  its.enum.map fun p => mapActivityToPlaceStop p.2 p.1

/-- The waypoint array handed to the map (lines 218-221): the user location
first, `[lng, lat]` pairs, then every stop's coordinates in order. -/
def buildWaypoints (loc : Location) (stops : List PlaceStop) : List (ℚ × ℚ) :=
  (loc.longitude, loc.latitude) :: stops.map fun s => (s.lng, s.lat)

/-! ### RoutePlanningPanel (`RoutePlanningPanel.tsx`) -/

/-- The runtime value of a JavaScript number field: a finite number or NaN.
The panel re-validates stop coordinates with `typeof`/`Number.isNaN`, so its
view of a stop must allow both. -/
inductive JsNum where
  | num (q : ℚ) : JsNum
  | nan : JsNum
deriving DecidableEq

/-- A stop as inspected defensively by the panel: the coordinate fields may
fail the panel's runtime checks. -/
structure RouteStop where
  place_id : String
  name : String
  lat : JsNum
  lng : JsNum

/-- The slice of route-context state read by the panel. -/
structure RouteState where
  userLocation : Option Location
  stops : List RouteStop

/-- `nearlySame` (lines 46-48): both coordinates within 1e-5. -/
def nearlySame (a b : ℚ × ℚ) : Bool :=
  decide (|a.1 - b.1| < 1 / 100000) && decide (|a.2 - b.2| < 1 / 100000)

/-- The coordinate validation in the `buildPoints` loop (lines 115-121):
a stop contributes `[lng, lat]` only if both fields are non-NaN numbers and
they are not both zero. -/
def stopPoint (s : RouteStop) : Option (ℚ × ℚ) :=
  match s.lng, s.lat with
  | .num lng, .num lat => if lng = 0 && lat = 0 then none else some (lng, lat)
  | _, _ => none

/-- `if (!pts.length || !nearlySame(pts[pts.length - 1], pt)) pts.push(pt)`
(line 124). -/
def pushPoint (pts : List (ℚ × ℚ)) (pt : ℚ × ℚ) : List (ℚ × ℚ) :=
  match pts.getLast? with
  | none => pts ++ [pt]
  | some lastPt => if nearlySame lastPt pt then pts else pts ++ [pt]

/-- One iteration of the `for (const s of stops)` loop in `buildPoints`. -/
def pushStep (pts : List (ℚ × ℚ)) (s : RouteStop) : List (ℚ × ℚ) :=
  match stopPoint s with
  | none => pts
  | some pt => pushPoint pts pt

/-- `buildPoints` (lines 109-129). -/
def buildPoints (st : RouteState) : List (ℚ × ℚ) :=
  st.stops.foldl pushStep
    (match st.userLocation with
     | some u => [(u.longitude, u.latitude)]
     | none => [])

/-- The externally visible outcome of `handleStart` (lines 132-150): an error
message is set and no Directions request goes out, or a Directions request is
issued for the built points. -/
inductive StartOutcome where
  | errorMissingToken : StartOutcome
  | errorNotEnoughPoints : StartOutcome
  | request (profile : String) (points : List (ℚ × ℚ)) : StartOutcome
deriving DecidableEq

/-- The control flow of `handleStart` up to the `fetch` (lines 132-157);
`tokenOk` models the Mapbox-token presence check. -/
def handleStart (tokenOk : Bool) (profile : String) (st : RouteState) : StartOutcome :=
  if tokenOk = false then .errorMissingToken
  else if (buildPoints st).length < 2 then .errorNotEnoughPoints
  else .request profile (buildPoints st)

/-! ### The planner pipeline, modelled from the specification

The planner service behind `POST /sidequest` is not in the repository sources;
everything below is modelled from the specification (§3, §4, §7, §9).  Times
are wall-clock minutes (the spec's 6-hour meal-cap threshold is 360 minutes),
costs are whole currency units, and coordinates share the unit of the request
radius; the spec's great-circle distance is modelled as planar squared
distance and its confidence/inverse-distance composite score as confidence
minus squared distance — monotone in the same directions, and none of the
verified claims depends on the metric itself. -/

/-- Modelled from the spec: the closed category set of §3 (the planner service
holding it is not in the sources). -/
inductive Category where
  | shopping : Category
  | meals : Category
  | bites : Category
  | entertainment : Category
  | physical_activity : Category
  | scenery : Category
deriving DecidableEq

/-- Modelled from the spec: recognition of an interest string against the
closed category set (§4.4); unrecognised strings yield `none`. -/
def parseCategory : String → Option Category
  | "shopping" => some .shopping
  | "meals" => some .meals
  | "bites" => some .bites
  | "entertainment" => some .entertainment
  | "physical_activity" => some .physical_activity
  | "scenery" => some .scenery
  | _ => none

/-- Modelled from the spec: interest normalization (§4.4) — strings outside
the closed set are discarded individually; if nothing remains the single
default category `entertainment` is substituted. -/
def normalizeInterests (ss : List String) : List Category :=
  if (ss.filterMap parseCategory).dedup.isEmpty then [.entertainment]
  else (ss.filterMap parseCategory).dedup

/-- Modelled from the spec: `ActivityCandidate` (§3).  `duration_min` is the
spec's `duration_hours` in minutes, `confidence` its `[0,1]` confidence in
hundredths; `open_interval` and `indoor_outdoor` play no role in the verified
claims and are omitted. -/
structure ActivityCandidate where
  id : ℕ
  title : String
  lat : ℤ
  lon : ℤ
  category : Category
  cost : ℤ
  duration_min : ℤ
  energy_level : ℤ
  confidence : ℤ
  visited : Bool
deriving DecidableEq

/-- Modelled from the spec: `PlanRequest` (§3), times in minutes. -/
structure PlanRequest where
  lat : ℤ
  lon : ℤ
  radius_km : ℤ
  start_time : ℤ
  end_time : ℤ
  budget : Option ℤ
  interests : List String
  energy : ℤ
  user_id : String
deriving DecidableEq

/-- Modelled from the spec: `ItineraryItem` (§3), with the scheduled
candidate's title and category carried along as in the client's
`SidequestActivity` view of an item. -/
structure ItineraryItem where
  activity_id : ℕ
  title : String
  category : Category
  assigned_start_time : ℤ
  duration_min : ℤ
  cost : ℤ
  sequence_index : ℕ
deriving DecidableEq

/-- Modelled from the spec: the diagnostic counters of §3's `metadata`. -/
structure PlanMetadata where
  activities_considered : ℕ
  activities_selected : ℕ
  activities_in_itinerary : ℕ
deriving DecidableEq

/-- Modelled from the spec: the `Itinerary` output contract (§3). -/
structure Itinerary where
  items : List ItineraryItem
  total_duration_min : ℤ
  total_cost : ℤ
  summary : String
  metadata : PlanMetadata
deriving DecidableEq

/-- Modelled from the spec: squared planar distance from the request origin,
standing in for §4.3's great-circle distance. -/
def distSq (req : PlanRequest) (c : ActivityCandidate) : ℤ :=
  (c.lat - req.lat) * (c.lat - req.lat) + (c.lon - req.lon) * (c.lon - req.lon)

/-- Modelled from the spec: the radius test of the Constraint Filter (§4.3). -/
def withinRadius (req : PlanRequest) (c : ActivityCandidate) : Bool :=
  decide (distSq req c ≤ req.radius_km * req.radius_km)

/-- Modelled from the spec: §4.4's composite score — increasing in
`confidence`, decreasing in distance from the origin. -/
def score (req : PlanRequest) (c : ActivityCandidate) : ℤ :=
  c.confidence - distSq req c

/-- Modelled from the spec: §4.4's strict preference order — higher score
first, ties broken by lower cost, then by lower candidate id. -/
def betterThan (req : PlanRequest) (a b : ActivityCandidate) : Bool :=
  decide (score req b < score req a) ||
    (decide (score req a = score req b) &&
      (decide (a.cost < b.cost) ||
        (decide (a.cost = b.cost) && decide (a.id < b.id))))

/-- One step of the best-candidate fold of §4.4. -/
def chooseBetter (req : PlanRequest) (best : Option ActivityCandidate)
    (c : ActivityCandidate) : Option ActivityCandidate :=
  match best with
  | none => some c
  | some b => if betterThan req c b then some c else some b

/-- Modelled from the spec: among the pool's candidates of a category, the
composite-score maximum with deterministic tie-breaks (§4.4). -/
def pickBest (req : PlanRequest) (cat : Category)
    (pool : List ActivityCandidate) : Option ActivityCandidate :=
  (pool.filter fun c => decide (c.category = cat)).foldl (chooseBetter req) none

/-- Modelled from the spec: the Category Coverage Selector (§4.4) — at most
one best candidate per normalized interest category; empty categories
contribute nothing. -/
def coverageSelect (req : PlanRequest) (cats : List Category)
    (pool : List ActivityCandidate) : List ActivityCandidate :=
  cats.filterMap fun cat => pickBest req cat pool

/-- A meal-category candidate (§4.5 counts only the `meals` category). -/
def isMeal (c : ActivityCandidate) : Bool :=
  decide (c.category = Category.meals)

/-- Modelled from the spec: the meal cap (§4.5) — 3 when the window spans
more than 6 hours (360 minutes), else 2. -/
def mealCapOf (req : PlanRequest) : ℕ :=
  if 360 < req.end_time - req.start_time then 3 else 2

/-- Modelled from the spec: the Meal-Cap Enforcer (§4.5) — meal items beyond
the cap are dropped, all other items pass through.  The Coverage Selector
feeds this stage at most one candidate per category, so which excess meal is
dropped first is immaterial here. -/
def capMeals : ℕ → List ActivityCandidate → List ActivityCandidate
  | _, [] => []
  | cap, c :: rest =>
      if isMeal c then
        if cap = 0 then capMeals 0 rest
        else c :: capMeals (cap - 1) rest
      else c :: capMeals cap rest

/-- Total cost of a candidate set (§3's `total_cost` over a stage output). -/
def totalCost (l : List ActivityCandidate) : ℤ :=
  (l.map fun c => c.cost).sum

/-- Total duration of a candidate set, in minutes. -/
def totalDuration (l : List ActivityCandidate) : ℤ :=
  (l.map fun c => c.duration_min).sum

/-- The least composite score occurring in a candidate set. -/
def minScoreVal (req : PlanRequest) : List ActivityCandidate → ℤ
  | [] => 0
  | [c] => score req c
  | c :: rest => min (score req c) (minScoreVal req rest)

/-- Modelled from the spec: removal of the first lowest-composite-score item
(the backtracking primitive of §4.6/§4.8, per §9 "iterative removal of the
lowest-scoring item until constraints hold"). -/
def removeMinScore (req : PlanRequest) : List ActivityCandidate → List ActivityCandidate
  | [] => []
  | [_] => []
  | c :: rest =>
      if score req c ≤ minScoreVal req rest then rest
      else c :: removeMinScore req rest

/-- Modelled from the spec: drop lowest-scoring items until `m` fits `bound`
(§9's greedy constraint satisfaction); the fuel is the list length, so the
loop always terminates, at worst on the empty set. -/
def trimToFit (req : PlanRequest) (m : List ActivityCandidate → ℤ) (bound : ℤ) :
    ℕ → List ActivityCandidate → List ActivityCandidate
  | 0, l => l
  | fuel + 1, l =>
      if m l ≤ bound then l
      else trimToFit req m bound fuel (removeMinScore req l)

/-- The request's time window length in minutes. -/
def windowMinutes (req : PlanRequest) : ℤ :=
  req.end_time - req.start_time

/-- Modelled from the spec: the Constraint Filter output (§4.3), whose size is
reported as `activities_considered`. -/
def filteredPool (pool : List ActivityCandidate) (req : PlanRequest) :
    List ActivityCandidate :=
  pool.filter (withinRadius req)

/-- The request's normalized interest categories (§4.4). -/
def requestCategories (req : PlanRequest) : List Category :=
  normalizeInterests req.interests

/-- Stage output of the Category Coverage Selector (§4.4). -/
def selectedCandidates (pool : List ActivityCandidate) (req : PlanRequest) :
    List ActivityCandidate :=
  coverageSelect req (requestCategories req) (filteredPool pool req)

/-- Stage output of the Meal-Cap Enforcer (§4.5). -/
def cappedCandidates (pool : List ActivityCandidate) (req : PlanRequest) :
    List ActivityCandidate :=
  capMeals (mealCapOf req) (selectedCandidates pool req)

/-- Modelled from the spec: the Budget-Constrained Selector (§4.6) — a no-op
without a budget, otherwise lowest-scoring items are removed until the total
cost fits (possibly leaving no items, the BudgetInfeasible outcome of §7). -/
def budgetedCandidates (pool : List ActivityCandidate) (req : PlanRequest) :
    List ActivityCandidate :=
  match req.budget with
  | none => cappedCandidates pool req
  | some b =>
      trimToFit req totalCost b (cappedCandidates pool req).length
        (cappedCandidates pool req)

/-- Modelled from the spec: the Sequencer's fit loop (§4.8) — drop the
lowest-scoring item until the total duration fits the window. -/
def scheduledCandidates (pool : List ActivityCandidate) (req : PlanRequest) :
    List ActivityCandidate :=
  trimToFit req totalDuration (windowMinutes req)
    (budgetedCandidates pool req).length (budgetedCandidates pool req)

/-- Modelled from the spec: the Sequencer's greedy start-time assignment
(§4.8) — the first item starts at `start_time`, each next one at the end of
the previous item's span; `sequence_index` ascends from 0. -/
def assignTimes (t : ℤ) (idx : ℕ) : List ActivityCandidate → List ItineraryItem
  | [] => []
  | c :: rest =>
      { activity_id := c.id
        title := c.title
        category := c.category
        assigned_start_time := t
        duration_min := c.duration_min
        cost := c.cost
        sequence_index := idx } :: assignTimes (t + c.duration_min) (idx + 1) rest

/-- The scheduled items of a plan. -/
def planItems (pool : List ActivityCandidate) (req : PlanRequest) :
    List ItineraryItem :=
  assignTimes req.start_time 0 (scheduledCandidates pool req)

/-- Modelled from the spec: the Summary Builder (§4.9, §7) — an explanatory
sentence for the empty outcomes (NoCandidatesFound, BudgetInfeasible), a
count-and-duration sentence otherwise. -/
def buildSummary (req : PlanRequest) (considered : ℕ)
    (items : List ItineraryItem) (durationMin : ℤ) : String :=
  if items.isEmpty then
    if considered = 0 then "No activities were found near you."
    else if req.budget.isSome then "No activities fit within the specified budget."
    else "No activities could be scheduled in the requested time window."
  else
    "Planned " ++ toString items.length ++ " activities totalling " ++
      toString durationMin ++ " minutes."

/-- Modelled from the spec: the full planner pipeline (§4.3-§4.9) behind
`POST /sidequest`, which is absent from the repository sources.  Cache,
normalizer dedupe and the novelty guarantee concern no verified claim and are
not modelled; each remaining stage consumes the previous stage's output. -/
def plan (pool : List ActivityCandidate) (req : PlanRequest) : Itinerary :=
  { items := planItems pool req
    total_duration_min := totalDuration (scheduledCandidates pool req)
    total_cost := totalCost (scheduledCandidates pool req)
    summary := buildSummary req (filteredPool pool req).length (planItems pool req)
      (totalDuration (scheduledCandidates pool req))
    metadata :=
      { activities_considered := (filteredPool pool req).length
        activities_selected := (selectedCandidates pool req).length
        activities_in_itinerary := (planItems pool req).length } }

/-- Modelled from the spec: the InputInvalid gate of §7 — a malformed time
window (`end_time ≤ start_time`), a negative radius or a negative budget is
rejected before the pipeline runs. -/
def validRequest (req : PlanRequest) : Bool :=
  decide (req.start_time < req.end_time) && decide (0 ≤ req.radius_km) &&
    (match req.budget with
     | none => true
     | some b => decide (0 ≤ b))

/-- Modelled from the spec: the request/response boundary (§6, §7) — invalid
requests are rejected (`none`), all others run the pipeline. -/
def handlePlanRequest (pool : List ActivityCandidate) (req : PlanRequest) :
    Option Itinerary :=
  if validRequest req then some (plan pool req) else none

/-- A meal-category itinerary item. -/
def isMealItem (it : ItineraryItem) : Bool :=
  decide (it.category = Category.meals)

/-! ### Concrete sample inputs used to instantiate the theorems -/

/-- A sample geolocation fix. -/
def loc0 : Location :=
  { latitude := 22, longitude := 114 }

/-- A sample panel state with the budget slider left at 0. -/
def fs0 : FilterState :=
  { energy := 5
    interests := { shopping := false, food := false, entertainment := true, scenery := false }
    budget := 0
    timeStart := "09:00"
    timeEnd := "17:00"
    indoorOutdoor := { indoor := false, outdoor := false }
    distance := .value 5 }

/-- A sample response activity. -/
def act0 : SidequestActivity :=
  { title := "Cafe"
    lat := 22
    lon := 114
    duration_hours := 1
    cost := some 10
    activity_type := "meals"
    indoor_outdoor := "indoor"
    energy_level := 3
    confidence := 1 }

/-- A route state with no location fix and no stops. -/
def st0 : RouteState :=
  { userLocation := none, stops := [] }

/-- A cheap entertainment candidate near the sample origin. -/
def cand0 : ActivityCandidate :=
  { id := 1
    title := "Arcade"
    lat := 1
    lon := 1
    category := .entertainment
    cost := 5
    duration_min := 60
    energy_level := 5
    confidence := 80
    visited := true }

/-- An entertainment candidate costing more than any sample budget. -/
def candCostly : ActivityCandidate :=
  { id := 2
    title := "Gallery"
    lat := 1
    lon := -1
    category := .entertainment
    cost := 100
    duration_min := 90
    energy_level := 3
    confidence := 70
    visited := false }

/-- The plan request corresponding to `fs0`: its budget field is exactly what
the panel posts for a slider value of 0. -/
def req0 : PlanRequest :=
  { lat := 0
    lon := 0
    radius_km := 10
    start_time := 540
    end_time := 1020
    budget := (buildSidequestData fs0 loc0 5).budget
    interests := ["entertainment"]
    energy := 5
    user_id := "test_user" }

/-- A request with a set budget of 10. -/
def reqB : PlanRequest :=
  { req0 with budget := some 10 }

/-- A request whose only interest string is not in the closed category set. -/
def reqF : PlanRequest :=
  { req0 with budget := none, interests := ["bogus"] }

/-- A request with a negative radius. -/
def reqNeg : PlanRequest :=
  { req0 with radius_km := -1 }

/-! ### Structural lemmas about the pipeline stages -/

/-- Removing the lowest-scoring item yields a sublist. -/
theorem removeMinScore_sublist (req : PlanRequest) :
    ∀ l : List ActivityCandidate, (removeMinScore req l).Sublist l
  | [] => by simp [removeMinScore]
  | [_] => by simp [removeMinScore]
  | c :: d :: rest => by
      show (if score req c ≤ minScoreVal req (d :: rest) then d :: rest
            else c :: removeMinScore req (d :: rest)).Sublist (c :: d :: rest)
      split
      · exact List.Sublist.cons c (List.Sublist.refl _)
      · exact List.Sublist.cons₂ c (removeMinScore_sublist req (d :: rest))

/-- Removing the lowest-scoring item of a nonempty set shrinks it by one. -/
theorem removeMinScore_length (req : PlanRequest) :
    ∀ l : List ActivityCandidate, l ≠ [] →
      (removeMinScore req l).length = l.length - 1
  | [], h => absurd rfl h
  | [_], _ => by simp [removeMinScore]
  | c :: d :: rest, _ => by
      show (if score req c ≤ minScoreVal req (d :: rest) then d :: rest
            else c :: removeMinScore req (d :: rest)).length = (c :: d :: rest).length - 1
      split
      · simp
      · have ih := removeMinScore_length req (d :: rest) (by simp)
        simp only [List.length_cons] at ih ⊢
        omega

/-- The trim loop yields a sublist of its input. -/
theorem trimToFit_sublist (req : PlanRequest) (m : List ActivityCandidate → ℤ)
    (bound : ℤ) :
    ∀ (fuel : ℕ) (l : List ActivityCandidate),
      (trimToFit req m bound fuel l).Sublist l
  | 0, l => by simp [trimToFit]
  | fuel + 1, l => by
      rw [trimToFit]
      split
      · exact List.Sublist.refl l
      · exact (trimToFit_sublist req m bound fuel _).trans (removeMinScore_sublist req l)

/-- With fuel at least the list length, the trim loop meets its bound as long
as the empty set does. -/
theorem trimToFit_bound (req : PlanRequest) (m : List ActivityCandidate → ℤ)
    (bound : ℤ) (hm : m [] ≤ bound) :
    ∀ (fuel : ℕ) (l : List ActivityCandidate), l.length ≤ fuel →
      m (trimToFit req m bound fuel l) ≤ bound
  | 0, l, h => by
      have hl : l = [] := by
        cases l with
        | nil => rfl
        | cons a t => simp at h
      subst hl
      simpa [trimToFit] using hm
  | fuel + 1, l, h => by
      rw [trimToFit]
      split
      · assumption
      · have hl : l ≠ [] := by
          rintro rfl
          simp_all
        have hlen := removeMinScore_length req l hl
        have hpos : 0 < l.length := List.length_pos.mpr hl
        exact trimToFit_bound req m bound hm fuel _ (by omega)

/-- A fold of `chooseBetter` returns its accumulator or a member of the list. -/
theorem foldl_chooseBetter_eq_some (req : PlanRequest) :
    ∀ (l : List ActivityCandidate) (acc : Option ActivityCandidate)
      (c : ActivityCandidate),
      l.foldl (chooseBetter req) acc = some c → acc = some c ∨ c ∈ l
  | [], _, _, h => Or.inl h
  | a :: l, acc, c, h => by
      rw [List.foldl_cons] at h
      rcases foldl_chooseBetter_eq_some req l (chooseBetter req acc a) c h with h₁ | h₁
      · cases acc with
        | none =>
            simp [chooseBetter] at h₁
            exact Or.inr (h₁ ▸ List.mem_cons_self a l)
        | some b =>
            by_cases hb : betterThan req a b = true
            · simp [chooseBetter, hb] at h₁
              exact Or.inr (h₁ ▸ List.mem_cons_self a l)
            · simp [chooseBetter, hb] at h₁
              exact Or.inl (by rw [h₁])
      · exact Or.inr (List.mem_cons_of_mem a h₁)

/-- A fold of `chooseBetter` started on a candidate stays on a candidate. -/
theorem foldl_chooseBetter_isSome (req : PlanRequest) :
    ∀ (l : List ActivityCandidate) (b : ActivityCandidate),
      (l.foldl (chooseBetter req) (some b)).isSome = true
  | [], _ => rfl
  | a :: l, b => by
      rw [List.foldl_cons]
      by_cases hb : betterThan req a b = true <;>
        simp only [chooseBetter, hb, if_true, if_false] <;>
        exact foldl_chooseBetter_isSome req l _

/-- The best pick of a category is a pool member of that category. -/
theorem pickBest_mem (req : PlanRequest) (cat : Category)
    (pool : List ActivityCandidate) (c : ActivityCandidate)
    (h : pickBest req cat pool = some c) :
    c ∈ pool ∧ c.category = cat := by
  unfold pickBest at h
  rcases foldl_chooseBetter_eq_some req _ none c h with h₁ | h₁
  · cases h₁
  · have := List.mem_filter.mp h₁
    exact ⟨this.1, by simpa using this.2⟩

/-- A category with a pool member gets a pick. -/
theorem pickBest_isSome (req : PlanRequest) (cat : Category)
    (pool : List ActivityCandidate) (c : ActivityCandidate)
    (hc : c ∈ pool) (hcat : c.category = cat) :
    ∃ d, pickBest req cat pool = some d := by
  have hmemf : c ∈ pool.filter fun x => decide (x.category = cat) :=
    List.mem_filter.mpr ⟨hc, by simpa using hcat⟩
  unfold pickBest
  rcases hf : pool.filter fun x => decide (x.category = cat) with _ | ⟨a, l⟩
  · rw [hf] at hmemf
    cases hmemf
  · rw [hf, List.foldl_cons]
    have h₁ : chooseBetter req none a = some a := rfl
    rw [h₁]
    exact Option.isSome_iff_exists.mp (foldl_chooseBetter_isSome req l a)

/-- The meal-cap stage yields a sublist. -/
theorem capMeals_sublist :
    ∀ (cap : ℕ) (l : List ActivityCandidate), (capMeals cap l).Sublist l
  | _, [] => by simp [capMeals]
  | cap, c :: rest => by
      rw [capMeals]
      by_cases hm : isMeal c = true
      · cases cap with
        | zero => simpa [hm] using List.Sublist.cons c (capMeals_sublist 0 rest)
        | succ k => simpa [hm] using List.Sublist.cons₂ c (capMeals_sublist k rest)
      · simpa [hm] using List.Sublist.cons₂ c (capMeals_sublist cap rest)

/-- The meal-cap stage leaves at most `cap` meal items. -/
theorem capMeals_countP :
    ∀ (cap : ℕ) (l : List ActivityCandidate),
      (capMeals cap l).countP isMeal ≤ cap
  | _, [] => by simp [capMeals]
  | cap, c :: rest => by
      rw [capMeals]
      by_cases hm : isMeal c = true
      · cases cap with
        | zero => simpa [hm] using capMeals_countP 0 rest
        | succ k =>
            have ih := capMeals_countP k rest
            simp only [hm, if_true, Nat.succ_ne_zero, if_false, Nat.succ_sub_one]
            rw [List.countP_cons_of_pos _ _ hm]
            omega
      · have ih := capMeals_countP cap rest
        rw [if_neg hm, List.countP_cons_of_neg _ _ hm]
        exact ih

/-- Every filtered candidate is a pool member. -/
theorem filteredPool_subset (pool : List ActivityCandidate) (req : PlanRequest) :
    ∀ c ∈ filteredPool pool req, c ∈ pool :=
  fun _ hc => (List.mem_filter.mp hc).1

/-- Every selected candidate survives from the filtered pool. -/
theorem selectedCandidates_subset (pool : List ActivityCandidate) (req : PlanRequest) :
    ∀ c ∈ selectedCandidates pool req, c ∈ filteredPool pool req := by
  intro c hc
  unfold selectedCandidates coverageSelect at hc
  rw [List.mem_filterMap] at hc
  obtain ⟨cat, _, hpb⟩ := hc
  exact (pickBest_mem req cat _ c hpb).1

/-- Every capped candidate is a pool member. -/
theorem cappedCandidates_mem_pool (pool : List ActivityCandidate) (req : PlanRequest) :
    ∀ c ∈ cappedCandidates pool req, c ∈ pool := by
  intro c hc
  have h₁ : c ∈ selectedCandidates pool req :=
    (capMeals_sublist (mealCapOf req) (selectedCandidates pool req)).subset hc
  exact filteredPool_subset pool req c (selectedCandidates_subset pool req c h₁)

/-- The budget stage yields a sublist of the capped set. -/
theorem budgetedCandidates_sublist (pool : List ActivityCandidate) (req : PlanRequest) :
    (budgetedCandidates pool req).Sublist (cappedCandidates pool req) := by
  unfold budgetedCandidates
  cases hb : req.budget with
  | none => exact List.Sublist.refl _
  | some b => exact trimToFit_sublist req totalCost b _ _

/-- Every budgeted candidate is a pool member. -/
theorem budgetedCandidates_mem_pool (pool : List ActivityCandidate) (req : PlanRequest) :
    ∀ c ∈ budgetedCandidates pool req, c ∈ pool :=
  fun c hc =>
    cappedCandidates_mem_pool pool req c ((budgetedCandidates_sublist pool req).subset hc)

/-- The sequencing fit loop yields a sublist of the budgeted set. -/
theorem scheduledCandidates_sublist (pool : List ActivityCandidate) (req : PlanRequest) :
    (scheduledCandidates pool req).Sublist (budgetedCandidates pool req) :=
  trimToFit_sublist req totalDuration (windowMinutes req) _ _

/-- Every scheduled candidate is a pool member. -/
theorem scheduledCandidates_mem_pool (pool : List ActivityCandidate) (req : PlanRequest) :
    ∀ c ∈ scheduledCandidates pool req, c ∈ pool :=
  fun c hc =>
    budgetedCandidates_mem_pool pool req c ((scheduledCandidates_sublist pool req).subset hc)

/-- The items of a plan are the time assignment of the scheduled set. -/
theorem plan_items_eq (pool : List ActivityCandidate) (req : PlanRequest) :
    (plan pool req).items = assignTimes req.start_time 0 (scheduledCandidates pool req) :=
  rfl

/-! ### Lemmas about greedy start-time assignment -/

/-- Time assignment preserves the meal count. -/
theorem assignTimes_countP_meal :
    ∀ (l : List ActivityCandidate) (t : ℤ) (idx : ℕ),
      (assignTimes t idx l).countP isMealItem = l.countP isMeal
  | [], _, _ => rfl
  | c :: rest, t, idx => by
      simp only [assignTimes, List.countP_cons, assignTimes_countP_meal rest]
      rfl

/-- Time assignment preserves the total cost. -/
theorem assignTimes_sum_cost :
    ∀ (l : List ActivityCandidate) (t : ℤ) (idx : ℕ),
      ((assignTimes t idx l).map fun it => it.cost).sum = totalCost l
  | [], _, _ => rfl
  | c :: rest, t, idx => by
      simp only [assignTimes, List.map_cons, List.sum_cons, totalCost] at *
      rw [assignTimes_sum_cost rest]
      simp [totalCost]

/-- Time assignment preserves the item count. -/
theorem assignTimes_length :
    ∀ (l : List ActivityCandidate) (t : ℤ) (idx : ℕ),
      (assignTimes t idx l).length = l.length
  | [], _, _ => rfl
  | _ :: rest, _, _ => by
      simp [assignTimes, assignTimes_length rest]

/-- The greedy assignment schedules consecutively: items are ordered with each
span ending before the next begins, every start is at least `t`, and every
span ends within `t` plus the total duration. -/
theorem assignTimes_schedule :
    ∀ (l : List ActivityCandidate) (t : ℤ) (idx : ℕ),
      (∀ c ∈ l, 0 ≤ c.duration_min) →
      ((assignTimes t idx l).Pairwise fun a b =>
          a.assigned_start_time + a.duration_min ≤ b.assigned_start_time) ∧
      ∀ it ∈ assignTimes t idx l,
        t ≤ it.assigned_start_time ∧
        it.assigned_start_time + it.duration_min ≤ t + totalDuration l
  | [], t, idx, _ => by simp [assignTimes]
  | c :: rest, t, idx, hd => by
      obtain ⟨ihp, ihb⟩ :=
        assignTimes_schedule rest (t + c.duration_min) (idx + 1)
          (fun x hx => hd x (List.mem_cons_of_mem c hx))
      have hc0 : 0 ≤ c.duration_min := hd c (List.mem_cons_self c rest)
      have hsum : 0 ≤ totalDuration rest := by
        apply List.sum_nonneg
        intro x hx
        rw [List.mem_map] at hx
        obtain ⟨a, ha, rfl⟩ := hx
        exact hd a (List.mem_cons_of_mem c ha)
      have htot : totalDuration (c :: rest) = c.duration_min + totalDuration rest := by
        simp [totalDuration]
      constructor
      · rw [assignTimes]
        refine List.pairwise_cons.mpr ⟨?_, ihp⟩
        intro b hb
        have := (ihb b hb).1
        simpa using this
      · intro it hit
        rw [assignTimes, List.mem_cons] at hit
        rcases hit with rfl | hit
        · refine ⟨le_refl t, ?_⟩
          rw [htot]
          simp only
          linarith
        · obtain ⟨h₁, h₂⟩ := ihb it hit
          refine ⟨by linarith, ?_⟩
          rw [htot]
          linarith

/-! ### Interest normalization -/

/-- Membership in the normalized interest set: a category is requested if some
interest string names it, or it is the `entertainment` fallback when no
string names any category. -/
theorem mem_normalizeInterests (ss : List String) (cat : Category) :
    cat ∈ normalizeInterests ss ↔
      ((∃ s ∈ ss, parseCategory s = some cat) ∨
        ((∀ s ∈ ss, parseCategory s = none) ∧ cat = Category.entertainment)) := by
  rcases hfm : ss.filterMap parseCategory with _ | ⟨a, l⟩
  · have hall : ∀ s ∈ ss, parseCategory s = none := by
      intro s hs
      by_contra hne
      rcases Option.ne_none_iff_exists.mp hne with ⟨b, hb⟩
      have hmem : b ∈ ss.filterMap parseCategory :=
        List.mem_filterMap.mpr ⟨s, hs, hb.symm⟩
      rw [hfm] at hmem
      cases hmem
    have hnorm : normalizeInterests ss = [Category.entertainment] := by
      unfold normalizeInterests
      rw [hfm]
      rfl
    rw [hnorm]
    simp only [List.mem_singleton]
    constructor
    · intro h
      exact Or.inr ⟨hall, h⟩
    · rintro (⟨s, hs, hps⟩ | ⟨_, rfl⟩)
      · rw [hall s hs] at hps
        cases hps
      · rfl
  · have hne : (ss.filterMap parseCategory).dedup ≠ [] := by
      rw [Ne, List.dedup_eq_nil, hfm]
      simp
    have hif : (ss.filterMap parseCategory).dedup.isEmpty = false := by
      rcases h2 : (ss.filterMap parseCategory).dedup with _ | ⟨x, xs⟩
      · exact absurd h2 hne
      · rfl
    have hnorm : normalizeInterests ss = (ss.filterMap parseCategory).dedup := by
      unfold normalizeInterests
      rw [hif]
      rfl
    rw [hnorm, List.mem_dedup, List.mem_filterMap]
    constructor
    · rintro ⟨s, hs, hps⟩
      exact Or.inl ⟨s, hs, hps⟩
    · rintro (⟨s, hs, hps⟩ | ⟨hall, rfl⟩)
      · exact ⟨s, hs, hps⟩
      · exfalso
        have hmem : a ∈ ss.filterMap parseCategory := by
          rw [hfm]
          exact List.mem_cons_self a l
        rcases List.mem_filterMap.mp hmem with ⟨s, hs, hps⟩
        rw [hall s hs] at hps
        cases hps

/-! ### The point-building loop of the route panel -/

/-- Invariant of the `buildPoints` loop: the loop only appends, what it
appends is (in order) a selection of the stops' valid coordinates, and no two
adjacent points of the result are nearly the same, provided none were in the
accumulator. -/
theorem foldPoints_spec :
    ∀ (ss : List RouteStop) (acc : List (ℚ × ℚ)),
      acc.Chain' (fun a b => nearlySame a b = false) →
      ∃ suffix,
        ss.foldl pushStep acc = acc ++ suffix ∧
        suffix.Sublist (ss.filterMap stopPoint) ∧
        (acc ++ suffix).Chain' (fun a b => nearlySame a b = false)
  | [], acc, hacc => ⟨[], by simp, by simp, by simpa using hacc⟩
  | s :: ss, acc, hacc => by
      rw [List.foldl_cons]
      cases hsp : stopPoint s with
      | none =>
          have hstep : pushStep acc s = acc := by simp [pushStep, hsp]
          rw [hstep]
          obtain ⟨suf, h1, h2, h3⟩ := foldPoints_spec ss acc hacc
          refine ⟨suf, h1, ?_, h3⟩
          rw [List.filterMap_cons, hsp]
          exact h2
      | some pt =>
          have hstep : pushStep acc s = pushPoint acc pt := by simp [pushStep, hsp]
          rw [hstep]
          cases hlast : acc.getLast? with
          | none =>
              have hacc0 : acc = [] := List.getLast?_eq_none_iff.mp hlast
              subst hacc0
              have hpush : pushPoint [] pt = [pt] := by simp [pushPoint]
              rw [hpush]
              obtain ⟨suf, h1, h2, h3⟩ := foldPoints_spec ss [pt] (List.chain'_singleton pt)
              refine ⟨pt :: suf, by simpa using h1, ?_, by simpa using h3⟩
              rw [List.filterMap_cons, hsp]
              exact List.Sublist.cons₂ pt h2
          | some lastPt =>
              by_cases hns : nearlySame lastPt pt = true
              · have hpush : pushPoint acc pt = acc := by simp [pushPoint, hlast, hns]
                rw [hpush]
                obtain ⟨suf, h1, h2, h3⟩ := foldPoints_spec ss acc hacc
                refine ⟨suf, h1, ?_, h3⟩
                rw [List.filterMap_cons, hsp]
                exact List.Sublist.cons pt h2
              · have hns' : nearlySame lastPt pt = false := by
                  cases h : nearlySame lastPt pt
                  · rfl
                  · exact absurd h hns
                have hpush : pushPoint acc pt = acc ++ [pt] := by
                  simp [pushPoint, hlast, hns']
                rw [hpush]
                have hchain2 : (acc ++ [pt]).Chain' (fun a b => nearlySame a b = false) := by
                  rw [List.chain'_append]
                  refine ⟨hacc, List.chain'_singleton pt, ?_⟩
                  intro x hx y hy
                  rw [hlast] at hx
                  simp only [Option.mem_def, Option.some_inj] at hx
                  simp only [List.head?_cons, Option.mem_def, Option.some_inj] at hy
                  subst hx
                  subst hy
                  exact hns'
                obtain ⟨suf, h1, h2, h3⟩ := foldPoints_spec ss (acc ++ [pt]) hchain2
                refine ⟨pt :: suf, ?_, ?_, ?_⟩
                · rw [h1, List.append_assoc]
                  rfl
                · rw [List.filterMap_cons, hsp]
                  exact List.Sublist.cons₂ pt h2
                · rw [show acc ++ pt :: suf = (acc ++ [pt]) ++ suf by simp]
                  exact h3

/-! ### Claim theorems for the client components -/

/-- C7: a successful sidequest response is rendered as exactly one stop per
itinerary item, in itinerary order, each stop's name being the item's title
and its lng/lat the item's lon/lat; the waypoint list is the user's location
followed by the stops' coordinates in order, hence one longer than the
itinerary. -/
theorem sidequest_stops_waypoints_aligned (its : List SidequestActivity) (loc : Location) :
    (placeStopsOf its).length = its.length ∧
    (placeStopsOf its).map (fun s => s.name) = its.map (fun a => a.title) ∧
    (placeStopsOf its).map (fun s => s.lng) = its.map (fun a => a.lon) ∧
    (placeStopsOf its).map (fun s => s.lat) = its.map (fun a => a.lat) ∧
    buildWaypoints loc (placeStopsOf its) =
      (loc.longitude, loc.latitude) :: its.map (fun a => (a.lon, a.lat)) ∧
    (buildWaypoints loc (placeStopsOf its)).length = its.length + 1 := by
  have key : ∀ {β : Type} (f : SidequestActivity → β),
      (its.enum.map fun p => f p.2) = its.map f := by
    intro β f
    rw [show (fun p : ℕ × SidequestActivity => f p.2) = f ∘ Prod.snd from rfl,
      ← List.map_map, List.enum_map_snd]
  refine ⟨?_, ?_, ?_, ?_, ?_, ?_⟩
  · simp [placeStopsOf, List.enum_length]
  · rw [placeStopsOf, List.map_map]
    exact key fun a => a.title
  · rw [placeStopsOf, List.map_map]
    exact key fun a => a.lon
  · rw [placeStopsOf, List.map_map]
    exact key fun a => a.lat
  · rw [buildWaypoints]
    congr 1
    rw [placeStopsOf, List.map_map]
    exact key fun a => (a.lon, a.lat)
  · simp [buildWaypoints, placeStopsOf, List.enum_length]

/-- C7 witness: the alignment on a concrete one-item response. -/
theorem sidequest_stops_waypoints_aligned_witness :
    (placeStopsOf [act0]).length = [act0].length ∧
    (placeStopsOf [act0]).map (fun s => s.name) = [act0].map (fun a => a.title) ∧
    (placeStopsOf [act0]).map (fun s => s.lng) = [act0].map (fun a => a.lon) ∧
    (placeStopsOf [act0]).map (fun s => s.lat) = [act0].map (fun a => a.lat) ∧
    buildWaypoints loc0 (placeStopsOf [act0]) =
      (loc0.longitude, loc0.latitude) :: [act0].map (fun a => (a.lon, a.lat)) ∧
    (buildWaypoints loc0 (placeStopsOf [act0])).length = [act0].length + 1 :=
  sidequest_stops_waypoints_aligned [act0] loc0

/-- C8: a request built by the panel carries exactly the checked checkbox
names, a subset of shopping/food/entertainment/scenery; `meals`, `bites` and
`physical_activity` can never be requested this way, and `food` is not in the
spec's closed category set. -/
theorem panel_interests_within_ui_set (f : FilterState) (loc : Location) (d : ℚ) :
    (buildSidequestData f loc d).interests = selectedInterests f.interests ∧
    (∀ s ∈ selectedInterests f.interests,
        s ∈ ["shopping", "food", "entertainment", "scenery"]) ∧
    "meals" ∉ selectedInterests f.interests ∧
    "bites" ∉ selectedInterests f.interests ∧
    "physical_activity" ∉ selectedInterests f.interests ∧
    parseCategory "food" = none := by
  refine ⟨rfl, ?_⟩
  rcases hfi : f.interests with ⟨a, b, c, d'⟩
  cases a <;> cases b <;> cases c <;> cases d' <;> decide

/-- C8 witness: with every box checked, `meals` is still not requested. -/
theorem panel_interests_within_ui_set_witness :
    "meals" ∉ selectedInterests
      { shopping := true, food := true, entertainment := true, scenery := true } :=
  (panel_interests_within_ui_set
    { fs0 with interests :=
        { shopping := true, food := true, entertainment := true, scenery := true } }
    loc0 5).2.2.1

/-- C9: the request's `indoor_outdoor` field is `"indoor"` exactly when only
the indoor box is checked, `"outdoor"` exactly when only the outdoor box is
checked, `null` when both or neither is checked, and never `"mixed"`. -/
theorem panel_indoor_outdoor_mapping (f : FilterState) (loc : Location) (d : ℚ) :
    (buildSidequestData f loc d).indoor_outdoor = selectedIndoorOutdoor f.indoorOutdoor ∧
    (selectedIndoorOutdoor f.indoorOutdoor = some "indoor" ↔
      (f.indoorOutdoor.indoor = true ∧ f.indoorOutdoor.outdoor = false)) ∧
    (selectedIndoorOutdoor f.indoorOutdoor = some "outdoor" ↔
      (f.indoorOutdoor.outdoor = true ∧ f.indoorOutdoor.indoor = false)) ∧
    (selectedIndoorOutdoor f.indoorOutdoor = none ↔
      f.indoorOutdoor.indoor = f.indoorOutdoor.outdoor) ∧
    selectedIndoorOutdoor f.indoorOutdoor ≠ some "mixed" := by
  refine ⟨rfl, ?_⟩
  rcases hio : f.indoorOutdoor with ⟨iB, oB⟩
  cases iB <;> cases oB <;> decide

/-- C9 witness: with both boxes checked the field is null, never mixed. -/
theorem panel_indoor_outdoor_mapping_witness :
    selectedIndoorOutdoor { indoor := true, outdoor := true } ≠ some "mixed" :=
  (panel_indoor_outdoor_mapping
    { fs0 with indoorOutdoor := { indoor := true, outdoor := true } } loc0 5).2.2.2.2

/-- C10: the built point list starts with the user's location when one is
set, otherwise consists only of stops whose coordinates are non-NaN numbers
and not both zero; stop order is preserved, no two adjacent points are within
1e-5 on both axes, and with fewer than two points `handleStart` reports an
error and issues no Directions request. -/
theorem buildPoints_handleStart_sound (st : RouteState) :
    (∀ u, st.userLocation = some u →
        (buildPoints st).head? = some (u.longitude, u.latitude)) ∧
    (st.userLocation = none →
        ∀ p ∈ buildPoints st, ∃ s ∈ st.stops, stopPoint s = some p) ∧
    ((buildPoints st).drop (if st.userLocation.isSome then 1 else 0)).Sublist
      (st.stops.filterMap stopPoint) ∧
    (buildPoints st).Chain' (fun a b => nearlySame a b = false) ∧
    ∀ (tokenOk : Bool) (profile : String),
      (buildPoints st).length < 2 →
        handleStart tokenOk profile st = StartOutcome.errorMissingToken ∨
        handleStart tokenOk profile st = StartOutcome.errorNotEnoughPoints := by
  have h5 : ∀ (tokenOk : Bool) (profile : String),
      (buildPoints st).length < 2 →
        handleStart tokenOk profile st = StartOutcome.errorMissingToken ∨
        handleStart tokenOk profile st = StartOutcome.errorNotEnoughPoints := by
    intro tk pr hlen
    cases tk
    · left
      rfl
    · right
      unfold handleStart
      rw [if_neg (by simp), if_pos hlen]
  cases hu : st.userLocation with
  | none =>
      obtain ⟨suf, h1, h2, h3⟩ := foldPoints_spec st.stops [] List.chain'_nil
      have hbp : buildPoints st = suf := by
        unfold buildPoints
        rw [hu]
        simpa using h1
      refine ⟨?_, ?_, ?_, ?_, h5⟩
      · intro u hc
        exact Option.noConfusion hc
      · intro _ p hp
        rw [hbp] at hp
        exact List.mem_filterMap.mp (h2.subset hp)
      · rw [hbp]
        simpa using h2
      · rw [hbp]
        simpa using h3
  | some u =>
      obtain ⟨suf, h1, h2, h3⟩ := foldPoints_spec st.stops [(u.longitude, u.latitude)]
        (List.chain'_singleton _)
      have hbp : buildPoints st = (u.longitude, u.latitude) :: suf := by
        unfold buildPoints
        rw [hu]
        simpa using h1
      refine ⟨?_, ?_, ?_, ?_, h5⟩
      · intro v hv
        injection hv with hv'
        subst hv'
        rw [hbp]
        rfl
      · intro hnone
        exact Option.noConfusion hnone
      · rw [hbp]
        simpa using h2
      · rw [hbp]
        simpa using h3

/-- C10 witness: on the empty route state `handleStart` reports an error. -/
theorem buildPoints_handleStart_sound_witness :
    handleStart true "walking" st0 = StartOutcome.errorMissingToken ∨
    handleStart true "walking" st0 = StartOutcome.errorNotEnoughPoints :=
  (buildPoints_handleStart_sound st0).2.2.2.2 true "walking" (by decide)

/-! ### Claim theorems for the planner pipeline (modelled from the spec) -/

/-- A set already within its bound is left untouched by the trim loop. -/
theorem trimToFit_of_le (req : PlanRequest) (m : List ActivityCandidate → ℤ)
    (bound : ℤ) (l : List ActivityCandidate) (h : m l ≤ bound) :
    ∀ fuel, trimToFit req m bound fuel l = l
  | 0 => rfl
  | fuel + 1 => by rw [trimToFit, if_pos h]

/-- C1: for every valid plan request (ordered window) over well-formed
candidates (non-negative durations), the returned itinerary's items are
pairwise non-overlapping in time, and every item's span
`[assigned_start_time, assigned_start_time + duration)` lies within
`[start_time, end_time]`. -/
theorem plan_items_nonoverlap_within_window (pool : List ActivityCandidate)
    (req : PlanRequest) (hw : req.start_time ≤ req.end_time)
    (hd : ∀ c ∈ pool, 0 ≤ c.duration_min) :
    ((plan pool req).items.Pairwise fun a b =>
        a.assigned_start_time + a.duration_min ≤ b.assigned_start_time ∨
        b.assigned_start_time + b.duration_min ≤ a.assigned_start_time) ∧
    ∀ it ∈ (plan pool req).items,
      req.start_time ≤ it.assigned_start_time ∧
      it.assigned_start_time + it.duration_min ≤ req.end_time := by
  have hdur : ∀ c ∈ scheduledCandidates pool req, 0 ≤ c.duration_min :=
    fun c hc => hd c (scheduledCandidates_mem_pool pool req c hc)
  have hfit : totalDuration (scheduledCandidates pool req) ≤ windowMinutes req := by
    unfold scheduledCandidates
    refine trimToFit_bound req totalDuration (windowMinutes req) ?_ _ _ le_rfl
    have h0 : totalDuration [] = 0 := rfl
    rw [h0]
    unfold windowMinutes
    omega
  obtain ⟨hp, hbnd⟩ :=
    assignTimes_schedule (scheduledCandidates pool req) req.start_time 0 hdur
  rw [plan_items_eq]
  constructor
  · exact hp.imp fun h => Or.inl h
  · intro it hit
    obtain ⟨h1, h2⟩ := hbnd it hit
    refine ⟨h1, ?_⟩
    unfold windowMinutes at hfit
    omega

/-- C1 witness: the schedule invariants on a concrete request and pool. -/
theorem plan_items_nonoverlap_within_window_witness :
    ((plan [cand0] req0).items.Pairwise fun a b =>
        a.assigned_start_time + a.duration_min ≤ b.assigned_start_time ∨
        b.assigned_start_time + b.duration_min ≤ a.assigned_start_time) ∧
    ∀ it ∈ (plan [cand0] req0).items,
      req0.start_time ≤ it.assigned_start_time ∧
      it.assigned_start_time + it.duration_min ≤ req0.end_time :=
  plan_items_nonoverlap_within_window [cand0] req0 (by decide) (by decide)

/-- C2: when a non-negative budget is set and candidate costs are
non-negative, the itinerary's total cost — which equals the sum of its item
costs — stays within the budget. -/
theorem plan_total_cost_within_budget (pool : List ActivityCandidate)
    (req : PlanRequest) (b : ℤ) (hb : req.budget = some b) (hb0 : 0 ≤ b)
    (hc : ∀ c ∈ pool, 0 ≤ c.cost) :
    (plan pool req).total_cost ≤ b ∧
    (plan pool req).total_cost
      = ((plan pool req).items.map fun it => it.cost).sum := by
  have htc : (plan pool req).total_cost = totalCost (scheduledCandidates pool req) := rfl
  constructor
  · have hbgt : totalCost (budgetedCandidates pool req) ≤ b := by
      unfold budgetedCandidates
      rw [hb]
      refine trimToFit_bound req totalCost b ?_ _ _ le_rfl
      simpa [totalCost] using hb0
    have hmono : totalCost (scheduledCandidates pool req)
        ≤ totalCost (budgetedCandidates pool req) := by
      unfold totalCost
      refine List.Sublist.sum_le_sum
        ((scheduledCandidates_sublist pool req).map fun c => c.cost) ?_
      intro x hx
      rw [List.mem_map] at hx
      obtain ⟨c, hcm, rfl⟩ := hx
      exact hc c (budgetedCandidates_mem_pool pool req c hcm)
    rw [htc]
    exact le_trans hmono hbgt
  · rw [htc, plan_items_eq, assignTimes_sum_cost]

/-- C2 witness: the budget bound on a concrete request with budget 10. -/
theorem plan_total_cost_within_budget_witness :
    (plan [cand0] reqB).total_cost ≤ 10 ∧
    (plan [cand0] reqB).total_cost
      = ((plan [cand0] reqB).items.map fun it => it.cost).sum :=
  plan_total_cost_within_budget [cand0] reqB 10 rfl (by decide) (by decide)

/-- C3: the itinerary never contains more than 3 meal-category items when the
window exceeds 6 hours (360 minutes), nor more than 2 otherwise. -/
theorem plan_meal_cap_respected (pool : List ActivityCandidate) (req : PlanRequest) :
    (plan pool req).items.countP isMealItem ≤
      if 360 < req.end_time - req.start_time then 3 else 2 := by
  have h1 : (plan pool req).items.countP isMealItem
      = (scheduledCandidates pool req).countP isMeal := by
    rw [plan_items_eq, assignTimes_countP_meal]
  have h2 := List.Sublist.countP_le isMeal (scheduledCandidates_sublist pool req)
  have h3 := List.Sublist.countP_le isMeal (budgetedCandidates_sublist pool req)
  have h4 : (cappedCandidates pool req).countP isMeal ≤ mealCapOf req :=
    capMeals_countP (mealCapOf req) (selectedCandidates pool req)
  have h5 : mealCapOf req = if 360 < req.end_time - req.start_time then 3 else 2 := rfl
  rw [h1, ← h5]
  omega

/-- C3 witness: the meal cap on a concrete request. -/
theorem plan_meal_cap_respected_witness :
    (plan [cand0] req0).items.countP isMealItem ≤
      if 360 < req0.end_time - req0.start_time then 3 else 2 :=
  plan_meal_cap_respected [cand0] req0

/-- The validation gate accepts exactly the well-formed requests. -/
theorem validRequest_iff (req : PlanRequest) :
    validRequest req = true ↔
      (req.start_time < req.end_time ∧ 0 ≤ req.radius_km ∧
        ∀ b, req.budget = some b → 0 ≤ b) := by
  unfold validRequest
  cases hb : req.budget with
  | none => simp
  | some b => simp [and_assoc]

/-- C4: a request with a malformed window (`end_time ≤ start_time`), a
negative radius or a negative budget is rejected before the pipeline runs;
every other request proceeds into the pipeline. -/
theorem plan_request_validation (pool : List ActivityCandidate) (req : PlanRequest) :
    (handlePlanRequest pool req = none ↔
      (req.end_time ≤ req.start_time ∨ req.radius_km < 0 ∨
        ∃ b, req.budget = some b ∧ b < 0)) ∧
    (handlePlanRequest pool req = none ∨
      handlePlanRequest pool req = some (plan pool req)) := by
  constructor
  · unfold handlePlanRequest
    by_cases h : validRequest req = true
    · rw [if_pos h]
      obtain ⟨h1, h2, h3⟩ := (validRequest_iff req).mp h
      apply iff_of_false
      · simp
      · push_neg
        refine ⟨by omega, by omega, ?_⟩
        intro b hbe
        exact h3 b hbe
    · rw [if_neg h]
      apply iff_of_true rfl
      have hn : ¬(req.start_time < req.end_time ∧ 0 ≤ req.radius_km ∧
          ∀ b, req.budget = some b → 0 ≤ b) :=
        fun hcon => h ((validRequest_iff req).mpr hcon)
      by_contra hno
      push_neg at hno
      obtain ⟨hn1, hn2, hn3⟩ := hno
      exact hn ⟨hn1, hn2, hn3⟩
  · unfold handlePlanRequest
    by_cases h : validRequest req = true
    · rw [if_pos h]
      exact Or.inr rfl
    · rw [if_neg h]
      exact Or.inl rfl

/-- C4 witness: a request with a negative radius is rejected. -/
theorem plan_request_validation_witness :
    handlePlanRequest [] reqNeg = none :=
  (plan_request_validation [] reqNeg).1.mpr (Or.inr (Or.inl (by decide)))

/-- C5 counterexample: the panel posts a slider budget of 0 as null, so the
plan request is unconstrained, and on a pool whose only candidate costs 5 the
planner returns a one-item itinerary — not the empty infeasible itinerary
with zero activities that the claim requires for budget 0. -/
theorem budget_zero_unconstrained_cex :
    (handleGenerateSidequest fs0 (some loc0)).map (fun d => d.budget) = some none ∧
    req0.budget = none ∧
    (plan [cand0] req0).metadata.activities_in_itinerary = 1 := by
  refine ⟨by decide, by decide, by decide⟩

/-- C5 (amended): a budget of 0 entered in the panel is sent as null, i.e.
unconstrained; for a request whose set non-negative budget is below every
pool candidate's cost, provided the pre-budget stages selected at least one
candidate, the result is an empty itinerary with zero reported activities and
a summary stating budget infeasibility. -/
theorem plan_budget_infeasible_empty (pool : List ActivityCandidate)
    (req : PlanRequest) (b : ℤ) (hb : req.budget = some b) (hb0 : 0 ≤ b)
    (hcost : ∀ c ∈ pool, b < c.cost)
    (hsel : cappedCandidates pool req ≠ []) :
    (plan pool req).items = [] ∧
    (plan pool req).metadata.activities_in_itinerary = 0 ∧
    (plan pool req).summary = "No activities fit within the specified budget." := by
  have hbud : budgetedCandidates pool req = [] := by
    have hle : totalCost (budgetedCandidates pool req) ≤ b := by
      unfold budgetedCandidates
      rw [hb]
      refine trimToFit_bound req totalCost b ?_ _ _ le_rfl
      simpa [totalCost] using hb0
    rcases hbb : budgetedCandidates pool req with _ | ⟨c, rest⟩
    · rfl
    · exfalso
      have hcm : c ∈ pool := budgetedCandidates_mem_pool pool req c
        (by rw [hbb]; exact List.mem_cons_self c rest)
      have hrest : 0 ≤ totalCost rest := by
        apply List.sum_nonneg
        intro x hx
        rw [List.mem_map] at hx
        obtain ⟨a, ha, rfl⟩ := hx
        have ham : a ∈ pool := budgetedCandidates_mem_pool pool req a
          (by rw [hbb]; exact List.mem_cons_of_mem c ha)
        have := hcost a ham
        omega
      rw [hbb] at hle
      have hcons : totalCost (c :: rest) = c.cost + totalCost rest := by
        simp [totalCost]
      rw [hcons] at hle
      have := hcost c hcm
      omega
  have hsched : scheduledCandidates pool req = [] := by
    unfold scheduledCandidates
    rw [hbud]
    rfl
  have hitems : planItems pool req = [] := by
    unfold planItems
    rw [hsched]
    rfl
  have hconsidered : (filteredPool pool req).length ≠ 0 := by
    obtain ⟨c, hcmem⟩ := List.exists_mem_of_ne_nil _ hsel
    have hcs : c ∈ selectedCandidates pool req :=
      (capMeals_sublist (mealCapOf req) (selectedCandidates pool req)).subset hcmem
    have hcf : c ∈ filteredPool pool req := selectedCandidates_subset pool req c hcs
    intro hlen
    rw [List.length_eq_zero] at hlen
    rw [hlen] at hcf
    cases hcf
  refine ⟨hitems, ?_, ?_⟩
  · show (planItems pool req).length = 0
    rw [hitems]
    rfl
  · show buildSummary req (filteredPool pool req).length (planItems pool req)
        (totalDuration (scheduledCandidates pool req)) = _
    rw [hitems]
    unfold buildSummary
    rw [hb]
    simp [hconsidered]

/-- C5 witness: budget 10 against a single 100-cost candidate is infeasible
and yields the empty itinerary with the infeasibility summary. -/
theorem plan_budget_infeasible_empty_witness :
    (plan [candCostly] reqB).items = [] ∧
    (plan [candCostly] reqB).metadata.activities_in_itinerary = 0 ∧
    (plan [candCostly] reqB).summary = "No activities fit within the specified budget." :=
  plan_budget_infeasible_empty [candCostly] reqB 10 rfl (by decide) (by decide) (by decide)

/-- C6 counterexample: with an empty candidate pool the invalid interest
string is normalized to `entertainment`, yet the resulting itinerary is empty
and so contains no entertainment-category item. -/
theorem interest_fallback_cex :
    normalizeInterests ["bogus"] = [Category.entertainment] ∧
    (plan [] reqF).items = [] := by
  refine ⟨by decide, by decide⟩

/-- C6 (amended): interest strings outside the closed category set are
discarded individually and an empty remainder is replaced by `entertainment`;
when moreover some in-radius candidate has category `entertainment`, the
budget is unconstrained and every candidate's duration fits the window, the
resulting itinerary contains an entertainment-category item. -/
theorem interest_normalization_fallback (pool : List ActivityCandidate)
    (req : PlanRequest)
    (h1 : ∀ s ∈ req.interests, parseCategory s = none)
    (h2 : req.budget = none)
    (h3 : ∃ c ∈ filteredPool pool req, c.category = Category.entertainment)
    (h4 : ∀ c ∈ pool, c.duration_min ≤ windowMinutes req) :
    (∀ (ss : List String) (cat : Category),
        cat ∈ normalizeInterests ss ↔
          ((∃ s ∈ ss, parseCategory s = some cat) ∨
            ((∀ s ∈ ss, parseCategory s = none) ∧ cat = Category.entertainment))) ∧
    ∃ it ∈ (plan pool req).items, it.category = Category.entertainment := by
  refine ⟨fun ss cat => mem_normalizeInterests ss cat, ?_⟩
  have hfm : req.interests.filterMap parseCategory = [] :=
    List.filterMap_eq_nil_iff.mpr h1
  have hcats : requestCategories req = [Category.entertainment] := by
    unfold requestCategories normalizeInterests
    rw [hfm]
    rfl
  obtain ⟨c, hcf, hcat⟩ := h3
  obtain ⟨d, hd⟩ := pickBest_isSome req Category.entertainment (filteredPool pool req) c hcf hcat
  obtain ⟨hdf, hdcat⟩ := pickBest_mem req Category.entertainment (filteredPool pool req) d hd
  have hsel : selectedCandidates pool req = [d] := by
    unfold selectedCandidates coverageSelect
    rw [hcats]
    simp [List.filterMap_cons, hd]
  have hnotmeal : ¬isMeal d = true := by
    unfold isMeal
    rw [hdcat]
    simp
  have hcap : cappedCandidates pool req = [d] := by
    unfold cappedCandidates
    rw [hsel]
    simp [capMeals, hnotmeal]
  have hbud : budgetedCandidates pool req = [d] := by
    unfold budgetedCandidates
    rw [h2]
    exact hcap
  have hdur : totalDuration [d] ≤ windowMinutes req := by
    have hdd : d.duration_min ≤ windowMinutes req :=
      h4 d (filteredPool_subset pool req d hdf)
    simpa [totalDuration] using hdd
  have hsch : scheduledCandidates pool req = [d] := by
    unfold scheduledCandidates
    rw [hbud]
    exact trimToFit_of_le req totalDuration (windowMinutes req) [d] hdur _
  rw [plan_items_eq, hsch]
  exact ⟨_, List.mem_cons_self _ _, hdcat⟩

/-- C6 witness: a bogus interest over a pool holding an entertainment
candidate yields the normalization law and an entertainment item. -/
theorem interest_normalization_fallback_witness :
    (∀ (ss : List String) (cat : Category),
        cat ∈ normalizeInterests ss ↔
          ((∃ s ∈ ss, parseCategory s = some cat) ∨
            ((∀ s ∈ ss, parseCategory s = none) ∧ cat = Category.entertainment))) ∧
    ∃ it ∈ (plan [cand0] reqF).items, it.category = Category.entertainment :=
  interest_normalization_fallback [cand0] reqF (by decide) rfl (by decide) (by decide)

end Wandr
